import Mathlib

/-!
Verification development for the minipix palette-constrained image
conversion pipeline.  The orchestration layer (`convertImage`, `convertPng`,
`reduceColors`, `applyBoost`, `qualityToFloat`, `supportsCanvasEncoding`,
`getOutputFormatSupport`) is embedded from the source file; the palette
library (`quantizePalette`, `applyPaletteMapping`) and pixel utilities
(`applyBackground`, `parseHexColor`, `ensureColorCount`) live in modules
that are not part of the snapshot and are modelled from the specification.
-/

/-- One RGBA pixel: four channel bytes in `[0,255]`. -/
structure Pixel where
  r : ℕ
  g : ℕ
  b : ℕ
  a : ℕ
  deriving DecidableEq, Repr

/-- The two packed-color formats used by the quantizer (spec 4.1):
a 5-6-5 RGB layout and a 4-4-4-4 RGBA layout. -/
inductive PackFormat where
  | rgb565
  | rgba4444
  deriving DecidableEq, Repr

/-- Options record of `quantizePalette` (spec 4.1). -/
structure QuantizeOpts where
  format : PackFormat
  oneBitAlpha : Bool
  clearAlpha : Bool
  deriving DecidableEq, Repr

/-- Modelled from the spec: the packed-color histogram key of a pixel
(spec 3 PackedColor).  The 5-6-5 layout keeps no alpha bits (with
`oneBitAlpha` the thresholded alpha contributes nothing to the key);
the 4-4-4-4 layout quantizes every channel to 4 bits. -/
def packColor (fmt : PackFormat) (p : Pixel) : ℕ :=
  match fmt with
  | .rgb565 => (p.r / 8) * 2048 + (p.g / 4) * 32 + p.b / 8
  | .rgba4444 => (p.r / 16) * 4096 + (p.g / 16) * 256 + (p.b / 16) * 16 + p.a / 16

/-- Modelled from the spec: decoding a packed color back to full channel
bytes (spec 4.1 step 2, "decoded back to full RGB(A) bytes"). -/
def unpackChannels (fmt : PackFormat) (k : ℕ) : List ℕ :=
  match fmt with
  | .rgb565 =>
    [(k / 2048 % 32) * 255 / 31, (k / 32 % 64) * 255 / 63, (k % 32) * 255 / 31, 255]
  | .rgba4444 =>
    [(k / 4096 % 16) * 17, (k / 256 % 16) * 17, (k / 16 % 16) * 17, (k % 16) * 17]

/-- Insert an element into a list sorted by `key`, before equal keys. -/
def insertSortedBy (key : α → ℕ) (x : α) : List α → List α
  | [] => [x]
  | y :: rest => if key x ≤ key y then x :: y :: rest else y :: insertSortedBy key x rest

/-- Stable insertion sort by a numeric key (deterministic ordering for
histogram iteration, spec 9: ascending packed-key order). -/
def sortBy (key : α → ℕ) : List α → List α
  | [] => []
  | x :: rest => insertSortedBy key x (sortBy key rest)

/-- Ascending sort of a list of naturals. -/
def sortAsc (l : List ℕ) : List ℕ := sortBy id l

/-- Remove adjacent duplicates (after sorting this yields the distinct keys
in ascending order). -/
def dedupAdj : List ℕ → List ℕ
  | [] => []
  | [x] => [x]
  | x :: y :: rest => if x = y then dedupAdj (y :: rest) else x :: dedupAdj (y :: rest)

/-- Occurrence count of a key in a list. -/
def countOcc (k : ℕ) : List ℕ → ℕ
  | [] => 0
  | x :: rest => (if x = k then 1 else 0) + countOcc k rest

/-- A weighted color: decoded channel bytes together with a pixel frequency. -/
abbrev WColor := List ℕ × ℕ

/-- A median-cut box: a list of weighted colors. -/
abbrev Box := List WColor

/-- Channel `j` of a weighted color. -/
def chVal (w : WColor) (j : ℕ) : ℕ := w.1.getD j 0

/-- Maximum of channel `j` over a box. -/
def chMax (box : Box) (j : ℕ) : ℕ := (box.map (fun w => chVal w j)).foldr max 0

/-- Minimum of channel `j` over a box. -/
def chMin (box : Box) (j : ℕ) : ℕ := (box.map (fun w => chVal w j)).foldr min 255

/-- Value range of channel `j` over a box. -/
def chRange (box : Box) (j : ℕ) : ℕ := chMax box j - chMin box j

/-- The channel with the strictly greatest range; ties resolved by the fixed
priority order R, G, B, A (spec 4.1 step 3). -/
def widestChannel (box : Box) : ℕ :=
  let pick := fun best j => if chRange box best < chRange box j then j else best
  pick (pick (pick 0 1) 2) 3

/-- Splittability score of a box: its widest channel range, or 0 when the box
has fewer than two members. -/
def boxScore (box : Box) : ℕ := if 2 ≤ box.length then chRange box (widestChannel box) else 0

/-- Greatest box score over a list of boxes. -/
def maxScore (boxes : List Box) : ℕ := (boxes.map boxScore).foldr max 0

/-- Total pixel frequency of a box. -/
def totalWeight (box : Box) : ℕ := (box.map Prod.snd).foldr (· + ·) 0

/-- Number of leading elements whose cumulative weight stays below `half`. -/
def weightedPrefix (half : ℕ) : ℕ → Box → ℕ
  | _, [] => 0
  | acc, w :: rest =>
    if acc + w.2 < half then weightedPrefix half (acc + w.2) rest + 1 else 0

/-- Weighted-median split position of a box, kept inside `[1, length-1]` so
both halves of a splittable box are nonempty. -/
def splitIndex (box : Box) : ℕ :=
  min (box.length - 1) (max 1 (weightedPrefix (totalWeight box / 2) 0 box))

/-- Split a box at its weighted median along its widest channel
(spec 4.1 step 3). -/
def medianSplit (box : Box) : Box × Box :=
  let s := sortBy (fun w => chVal w (widestChannel box)) box
  (s.take (splitIndex s), s.drop (splitIndex s))

/-- Replace the first box of score `r` by its two halves. -/
def splitOnce (r : ℕ) : List Box → List Box
  | [] => []
  | b :: rest =>
    if boxScore b = r then (medianSplit b).1 :: (medianSplit b).2 :: rest
    else b :: splitOnce r rest

/-- One round of box splitting: split a box of maximal score, if any box is
splittable at all. -/
def splitStep (boxes : List Box) : List Box :=
  if maxScore boxes = 0 then boxes else splitOnce (maxScore boxes) boxes

/-- Frequency-weighted average color of a box (spec 4.1 step 3). -/
def weightedAvg (box : Box) : List ℕ :=
  let t := totalWeight box
  if t = 0 then [0, 0, 0, 255]
  else [0, 1, 2, 3].map (fun j => (box.map (fun w => w.2 * chVal w j)).foldr (· + ·) 0 / t)

/-- Palette-entry shape per format: 3 bytes for `rgb565`, 4 bytes for
`rgba4444`, with `clearAlpha` forcing the alpha byte to 255 (spec 4.1
step 4). -/
def finalizeEntry (opts : QuantizeOpts) (c : List ℕ) : List ℕ :=
  match opts.format with
  | .rgb565 => [c.getD 0 0, c.getD 1 0, c.getD 2 0]
  | .rgba4444 =>
    [c.getD 0 0, c.getD 1 0, c.getD 2 0, if opts.clearAlpha then 255 else c.getD 3 0]

/-- Modelled from the spec: `quantizePalette` of the palette library
(`src/lib/gifEncoder` is not part of the snapshot; only its callers are).
Spec 4.1: build a packed-color histogram; when the distinct packed colors
already fit in `targetColors` the palette is exactly those colors decoded
back to bytes; otherwise reduce by recursive box splitting on the channel
with greatest range, weighted by frequency, and take the frequency-weighted
average of each box. -/
def quantizePalette (pixels : List Pixel) (targetColors : ℕ) (opts : QuantizeOpts) :
    List (List ℕ) :=
  let packed := pixels.map (packColor opts.format)
  let keys := dedupAdj (sortAsc packed)
  if keys.length ≤ targetColors then
    keys.map (fun k => finalizeEntry opts (unpackChannels opts.format k))
  else
    let box0 : Box := keys.map (fun k => (unpackChannels opts.format k, countOcc k packed))
    (splitStep^[targetColors - 1] [box0]).map (fun b => finalizeEntry opts (weightedAvg b))

/-- Squared difference of two channel bytes. -/
def sqDiff (x y : ℕ) : ℕ := ((x : ℤ) - (y : ℤ)).natAbs ^ 2

/-- Channels compared by the nearest-color search: RGB for `rgb565`, RGBA
for `rgba4444` (spec 4.2). -/
def relevantChannels (fmt : PackFormat) : List ℕ :=
  match fmt with
  | .rgb565 => [0, 1, 2]
  | .rgba4444 => [0, 1, 2, 3]

/-- Squared Euclidean distance between a decoded pixel and a palette entry
over the relevant channels (spec 4.2). -/
def colorDist (fmt : PackFormat) (c entry : List ℕ) : ℕ :=
  ((relevantChannels fmt).map (fun j => sqDiff (c.getD j 0) (entry.getD j 0))).foldr (· + ·) 0

/-- Index and value of the minimum of `f` over a list, preferring the lowest
index on ties. -/
def argminAux (f : α → ℕ) : List α → ℕ × ℕ
  | [] => (0, 0)
  | [x] => (0, f x)
  | x :: y :: rest =>
    let p := argminAux f (y :: rest)
    if p.2 < f x then (p.1 + 1, p.2) else (0, f x)

/-- Modelled from the spec: the nearest-palette-entry search of the palette
library (spec 4.2): decode the pixel under the palette's packed format, then
pick the index of the nearest entry by squared Euclidean distance, ties
broken by lowest index. -/
def nearestIndex (fmt : PackFormat) (palette : List (List ℕ)) (p : Pixel) : ℕ :=
  (argminAux (colorDist fmt (unpackChannels fmt (packColor fmt p))) palette).1

/-- Modelled from the spec: `applyPaletteMapping` of the palette library
(`src/lib/gifEncoder` is not part of the snapshot).  Spec 4.2: map every
source pixel to the index of its nearest palette entry.  The PNG reduction
path calls it without dithering, which is all this development needs. -/
def applyPaletteMapping (pixels : List Pixel) (palette : List (List ℕ)) (fmt : PackFormat) :
    List ℕ :=
  pixels.map (nearestIndex fmt palette)

/-- Concatenate the 4-byte chunks produced for each element of a list. -/
def flat4 (f : α → List ℕ) : List α → List ℕ
  | [] => []
  | x :: rest => f x ++ flat4 f rest

/-- Embedding of `reduceColors` (pipeline source lines 176-198): quantize
with `rgba4444` when alpha is preserved and `rgb565` otherwise, map every
pixel to its palette index, then rebuild an RGBA byte buffer from the
palette colors; the alpha byte comes from the palette entry, the source, or
the constant 255 exactly as in the source ternary. -/
def reduceColors (source : List Pixel) (targetColors : ℕ) (preserveAlpha : Bool) : List ℕ :=
  let fmt := if preserveAlpha then PackFormat.rgba4444 else PackFormat.rgb565
  let palette := quantizePalette source targetColors ⟨fmt, !preserveAlpha, true⟩
  let indices := applyPaletteMapping source palette fmt
  flat4 (fun pi =>
    let c := palette.getD pi.2 []
    [c.getD 0 0, c.getD 1 0, c.getD 2 0,
      if preserveAlpha ∧ 3 < c.length then c.getD 3 0
      else if preserveAlpha then pi.1.a else 255])
    (source.zip indices)

/-- Modelled from the spec: `ensureColorCount` of the pixel utilities
(`src/lib/imageUtils` is not part of the snapshot).  Spec 4.3/7: a color
count outside `[2,256]` is clamped into the valid range, never surfaced as
an error. -/
def ensureColorCount (c : ℕ) : ℕ := min 256 (max 2 c)

/-- Value of one hexadecimal digit character, 0 for anything else. -/
def hexDigitVal (c : Char) : ℕ :=
  if 48 ≤ c.toNat ∧ c.toNat ≤ 57 then c.toNat - 48
  else if 97 ≤ c.toNat ∧ c.toNat ≤ 102 then c.toNat - 87
  else if 65 ≤ c.toNat ∧ c.toNat ≤ 70 then c.toNat - 55
  else 0

/-- Modelled from the spec: `parseHexColor` of the pixel utilities
(`src/lib/imageUtils` is not part of the snapshot).  Spec 6: the background
color is a `"#RRGGBB"` string; parse it into three channel bytes. -/
def parseHexColor (s : String) : ℕ × ℕ × ℕ :=
  let ds := (s.toList.filter (fun c => c ≠ '#')).map hexDigitVal
  (16 * ds.getD 0 0 + ds.getD 1 0,
   16 * ds.getD 2 0 + ds.getD 3 0,
   16 * ds.getD 4 0 + ds.getD 5 0)

/-- Modelled from the spec: `applyBackground` of the pixel utilities
(`src/lib/imageUtils` is not part of the snapshot).  Spec 4.3 step 1 and 8:
alpha-blend each pixel toward the opaque background color and discard the
resulting alpha (every output pixel becomes fully opaque). -/
def applyBackground (data : List Pixel) (bg : ℕ × ℕ × ℕ) : List Pixel :=
  data.map (fun p =>
    ⟨(p.r * p.a + bg.1 * (255 - p.a)) / 255,
     (p.g * p.a + bg.2.1 * (255 - p.a)) / 255,
     (p.b * p.a + bg.2.2 * (255 - p.a)) / 255, 255⟩)

/-- Options record of the PNG target (pipeline source lines 19-25). -/
structure PngConversionOptions where
  colorCount : ℕ
  reduceColors : Bool
  preserveAlpha : Bool
  backgroundColor : String
  interlaced : Bool
  deriving DecidableEq, Repr

/-- The arguments handed to the external PNG encoder collaborator
(`UPNG.encode` in the source): frame bytes, dimensions, the color count and
the interlace flag. -/
structure PngEncodeCall where
  frame : List ℕ
  width : ℕ
  height : ℕ
  colorCount : ℕ
  interlaced : Bool
  deriving DecidableEq, Repr

/-- Embedding of `convertPng` (pipeline source lines 200-233): composite
onto the parsed background unless alpha is preserved; reduce colors when
requested and the count is below 256, clamping the count via
`ensureColorCount`; hand the frame to the PNG encoder collaborator with the
clamped count (or 0 when no reduction was requested).  The source function
contains no failure path of its own, so the embedding is total. -/
def convertPng (data : List Pixel) (width height : ℕ) (options : PngConversionOptions) :
    PngEncodeCall :=
  let data1 :=
    if options.preserveAlpha then data
    else applyBackground data (parseHexColor options.backgroundColor)
  let processed :=
    if options.reduceColors ∧ options.colorCount < 256 then
      reduceColors data1 (ensureColorCount options.colorCount) options.preserveAlpha
    else flat4 (fun p => [p.r, p.g, p.b, p.a]) data1
  ⟨processed, width, height,
   if options.reduceColors then ensureColorCount options.colorCount else 0,
   options.interlaced⟩

/-- Boost settings (pipeline source lines 33-38).  The exposure slider is a
number of stops; it is modelled as an integer so that the power-of-two
factor `2 ** exposure` is exact rational arithmetic. -/
structure BoostSettings where
  exposure : ℤ
  saturation : ℚ
  contrast : ℚ
  brightness : ℚ
  deriving DecidableEq, Repr

/-- Embedding of `clampByte` (pipeline source line 99). -/
def clampByte (v : ℚ) : ℚ := min 255 (max 0 v)

/-- Embedding of `defaultBoost` (pipeline source lines 100-105). -/
def defaultBoost : BoostSettings := ⟨0, 1, 1, 0⟩

/-- Embedding of the `applyBoost` pixel loop (pipeline source lines
107-138) on the flat RGBA byte buffer: each 4-byte pixel gets exposure,
saturation, contrast and brightness applied to R, G, B with a final clamp
to `[0,255]`, while the alpha byte is passed through; a trailing fragment
shorter than one pixel is left as is (the loop reads 4 bytes at a time).
Channel bytes are modelled as rationals so the arithmetic is exact. -/
def applyBoostData (boost : BoostSettings) : List ℚ → List ℚ
  | r :: g :: b :: a :: rest =>
    let ef : ℚ := 2 ^ boost.exposure
    let r1 := r * ef
    let g1 := g * ef
    let b1 := b * ef
    let lum := 0.2126 * r1 + 0.7152 * g1 + 0.0722 * b1
    let r2 := lum + (r1 - lum) * boost.saturation
    let g2 := lum + (g1 - lum) * boost.saturation
    let b2 := lum + (b1 - lum) * boost.saturation
    let r3 := (r2 - 128) * boost.contrast + 128 + boost.brightness
    let g3 := (g2 - 128) * boost.contrast + 128 + boost.brightness
    let b3 := (b2 - 128) * boost.contrast + 128 + boost.brightness
    clampByte r3 :: clampByte g3 :: clampByte b3 :: a :: applyBoostData boost rest
  | [] => []
  | [x] => [x]
  | [x, y] => [x, y]
  | [x, y, z] => [x, y, z]

/-- GIF dithering modes (pipeline source line 9). -/
inductive GifDitheringMode where
  | none
  | floydSteinberg
  deriving DecidableEq, Repr

/-- Options record of the GIF target (pipeline source lines 11-17). -/
structure GifConversionOptions where
  colorCount : ℕ
  dithering : GifDitheringMode
  preserveAlpha : Bool
  backgroundColor : String
  loopCount : ℤ
  deriving DecidableEq, Repr

/-- The palette-mapped frame handed to the GIF bitstream writer. -/
structure GifEncodeCall where
  palette : List (List ℕ)
  indices : List ℕ
  width : ℕ
  height : ℕ
  loopCount : ℤ
  deriving DecidableEq, Repr

/-- Modelled from the spec: `convertGifWithOptions` of the palette library
(`src/lib/gifEncoder` is not part of the snapshot).  Spec 4.3 steps 1-3:
composite onto the background unless alpha is preserved, quantize with the
clamped color count under `rgba4444` when alpha is preserved and `rgb565`
otherwise, and map every pixel to its palette index; the LZW bitstream
emission of step 4 (and the dithering variant of the mapping) is abstracted
as the resulting encoder-call record, which no claim inspects. -/
def convertGifWithOptions (data : List Pixel) (width height : ℕ)
    (options : GifConversionOptions) : GifEncodeCall :=
  let fmt := if options.preserveAlpha then PackFormat.rgba4444 else PackFormat.rgb565
  let data1 :=
    if options.preserveAlpha then data
    else applyBackground data (parseHexColor options.backgroundColor)
  let palette := quantizePalette data1 (ensureColorCount options.colorCount)
    ⟨fmt, !options.preserveAlpha, !options.preserveAlpha⟩
  ⟨palette, applyPaletteMapping data1 palette fmt, width, height, options.loopCount⟩

/-- The host environment seen by the canvas-capability probe: whether a
`document` exists, and what `canvas.toDataURL(mime).startsWith(...)`
reports for each mime type. -/
structure HostEnv where
  hasDocument : Bool
  probe : String → Bool

/-- The module-scoped `canvasEncodeSupport` cache (pipeline source line
56): an association list from mime type to the probed boolean. -/
abbrev EncodeCache := List (String × Bool)

/-- Lookup in the capability cache. -/
def cacheLookup (cache : EncodeCache) (mime : String) : Option Bool :=
  match cache with
  | [] => none
  | (m, v) :: rest => if m = mime then some v else cacheLookup rest mime

/-- Result of one `supportsCanvasEncoding` call: the boolean answer, the
cache afterwards, and how many times the host was probed during the call. -/
structure ProbeOutcome where
  result : Bool
  cache : EncodeCache
  probes : ℕ
  deriving Repr

/-- Embedding of `supportsCanvasEncoding` (pipeline source lines 57-66):
with no `document` the call answers `true` without touching the cache;
otherwise a cached answer is returned without probing, and on a cache miss
the host is probed exactly once and the answer stored. -/
def supportsCanvasEncoding (env : HostEnv) (cache : EncodeCache) (mimeType : String) :
    ProbeOutcome :=
  if env.hasDocument = false then ⟨true, cache, 0⟩
  else
    match cacheLookup cache mimeType with
    | some c => ⟨c, cache, 0⟩
    | none =>
      let supported := env.probe mimeType
      ⟨supported, (mimeType, supported) :: cache, 1⟩

/-- Per-format support record (pipeline source line 7). -/
structure OutputFormatSupport where
  jpeg : Bool
  webp : Bool
  png : Bool
  gif : Bool
  deriving DecidableEq, Repr

/-- Embedding of `getOutputFormatSupport` (pipeline source lines 68-73):
JPEG and WebP are probed through `supportsCanvasEncoding` (threading the
module cache), while PNG and GIF are the literal constant `true`. -/
def getOutputFormatSupport (env : HostEnv) (cache : EncodeCache) :
    OutputFormatSupport × EncodeCache :=
  let j := supportsCanvasEncoding env cache "image/jpeg"
  let w := supportsCanvasEncoding env j.cache "image/webp"
  (⟨j.result, w.result, true, true⟩, w.cache)

/-- Embedding of `qualityToFloat` (pipeline source lines 95-97). -/
def qualityToFloat (quality : ℚ) : ℚ := min 1 (max 0 (quality / 100))

/-- The conversion configuration sum type (pipeline source lines 27-31). -/
inductive ConversionConfig where
  | jpeg (quality : ℚ)
  | webp (quality : ℚ)
  | png (options : PngConversionOptions)
  | gif (options : GifConversionOptions)

/-- The blob produced by one conversion: either of the two palette encoder
calls, or the lossy canvas encode of the boosted pixel bytes. -/
inductive BlobModel where
  | gif (call : GifEncodeCall)
  | png (call : PngEncodeCall)
  | canvas (mimeType : String) (quality : ℚ) (boosted : List ℚ)

/-- Which encoder collaborator a `convertImage` run invoked. -/
inductive EncoderCall where
  | gif
  | png
  | canvas (mimeType : String) (quality : ℚ)
  deriving DecidableEq, Repr

/-- Outcome of a `convertImage` run: the returned result (or error), plus
the trace of encoder collaborators that were invoked. -/
structure ConvertOutcome where
  result : Except String (BlobModel × ℕ × ℕ)
  calls : List EncoderCall

/-- The flat RGBA bytes of a pixel buffer, as rationals for the boost. -/
def pixelBytes (data : List Pixel) : List ℚ :=
  (flat4 (fun p => [p.r, p.g, p.b, p.a]) data).map (fun n => (n : ℚ))

/-- Embedding of `convertImage` (pipeline source lines 270-342) after the
image has been decoded and drawn: a zero width or height throws before any
format branch runs, so no encoder collaborator is invoked and no blob is
produced; otherwise the GIF and PNG paths call their encoders on the pixel
buffer, and the JPEG/WebP path applies the boost and hands the clamped
quality fraction to the canvas encoder. -/
def convertImage (width height : ℕ) (data : List Pixel) (config : ConversionConfig)
    (boost : Option BoostSettings) : ConvertOutcome :=
  if width = 0 ∨ height = 0 then
    ⟨Except.error "Conversion failed: decoded image has zero dimensions.", []⟩
  else
    match config with
    | .gif options =>
      let call := convertGifWithOptions data width height options
      ⟨Except.ok (BlobModel.gif call, width, height), [EncoderCall.gif]⟩
    | .png options =>
      let call := convertPng data width height options
      ⟨Except.ok (BlobModel.png call, width, height), [EncoderCall.png]⟩
    | .jpeg quality =>
      let boosted := applyBoostData (boost.getD defaultBoost) (pixelBytes data)
      ⟨Except.ok (BlobModel.canvas "image/jpeg" (qualityToFloat quality) boosted,
        width, height),
       [EncoderCall.canvas "image/jpeg" (qualityToFloat quality)]⟩
    | .webp quality =>
      let boosted := applyBoostData (boost.getD defaultBoost) (pixelBytes data)
      ⟨Except.ok (BlobModel.canvas "image/webp" (qualityToFloat quality) boosted,
        width, height),
       [EncoderCall.canvas "image/webp" (qualityToFloat quality)]⟩

theorem insertSortedBy_length (key : α → ℕ) (x : α) (l : List α) :
    (insertSortedBy key x l).length = l.length + 1 := by
  induction l with
  | nil => rfl
  | cons y rest ih =>
    simp only [insertSortedBy]
    split
    · rfl
    · simp [ih]

theorem sortBy_length (key : α → ℕ) (l : List α) : (sortBy key l).length = l.length := by
  induction l with
  | nil => rfl
  | cons x rest ih => simp [sortBy, insertSortedBy_length, ih]

theorem dedupAdj_ne_nil (l : List ℕ) (h : l ≠ []) : dedupAdj l ≠ [] := by
  induction l with
  | nil => exact absurd rfl h
  | cons x rest ih =>
    cases rest with
    | nil => simp [dedupAdj]
    | cons y r2 =>
      simp only [dedupAdj]
      split
      · exact ih (by simp)
      · simp

theorem splitOnce_length_le (r : ℕ) (l : List Box) :
    (splitOnce r l).length ≤ l.length + 1 := by
  induction l with
  | nil => simp [splitOnce]
  | cons b rest ih =>
    simp only [splitOnce]
    split
    · simp
    · simp only [List.length_cons]
      omega

theorem splitOnce_length_ge (r : ℕ) (l : List Box) :
    l.length ≤ (splitOnce r l).length := by
  induction l with
  | nil => simp [splitOnce]
  | cons b rest ih =>
    simp only [splitOnce]
    split
    · simp
    · simp only [List.length_cons]
      omega

theorem splitStep_length_le (bs : List Box) : (splitStep bs).length ≤ bs.length + 1 := by
  unfold splitStep
  split
  · omega
  · exact splitOnce_length_le _ _

theorem splitStep_length_ge (bs : List Box) : bs.length ≤ (splitStep bs).length := by
  unfold splitStep
  split
  · omega
  · exact splitOnce_length_ge _ _

theorem iterate_splitStep_le (n : ℕ) (bs : List Box) :
    (splitStep^[n] bs).length ≤ bs.length + n := by
  induction n with
  | zero => simp
  | succ n ih =>
    rw [Function.iterate_succ_apply']
    have := splitStep_length_le (splitStep^[n] bs)
    omega

theorem iterate_splitStep_ge (n : ℕ) (bs : List Box) :
    bs.length ≤ (splitStep^[n] bs).length := by
  induction n with
  | zero => simp
  | succ n ih =>
    rw [Function.iterate_succ_apply']
    have := splitStep_length_ge (splitStep^[n] bs)
    omega

theorem quantizePalette_length_le (pixels : List Pixel) (targetColors : ℕ)
    (opts : QuantizeOpts) (h1 : 1 ≤ targetColors) :
    (quantizePalette pixels targetColors opts).length ≤ targetColors := by
  unfold quantizePalette
  dsimp only
  split
  · simpa using by assumption
  · simp only [List.length_map]
    have := iterate_splitStep_le (targetColors - 1)
      [(dedupAdj (sortAsc (pixels.map (packColor opts.format)))).map
        (fun k => (unpackChannels opts.format k, countOcc k (pixels.map (packColor opts.format))))]
    simp only [List.length_singleton] at this
    omega

theorem quantizePalette_length_pos (pixels : List Pixel) (targetColors : ℕ)
    (opts : QuantizeOpts) (hp : pixels ≠ []) :
    1 ≤ (quantizePalette pixels targetColors opts).length := by
  have hlen : (sortAsc (pixels.map (packColor opts.format))).length = pixels.length := by
    simp [sortAsc, sortBy_length]
  have hkeys : dedupAdj (sortAsc (pixels.map (packColor opts.format))) ≠ [] := by
    apply dedupAdj_ne_nil
    intro hnil
    rw [hnil] at hlen
    exact hp (List.length_eq_zero.mp hlen.symm)
  unfold quantizePalette
  dsimp only
  split
  · simpa [Nat.one_le_iff_ne_zero, List.length_eq_zero] using hkeys
  · simp only [List.length_map]
    have := iterate_splitStep_ge (targetColors - 1)
      [(dedupAdj (sortAsc (pixels.map (packColor opts.format)))).map
        (fun k => (unpackChannels opts.format k, countOcc k (pixels.map (packColor opts.format))))]
    simp only [List.length_singleton] at this
    omega

/-- C1: for every pixel buffer and every `targetColors` in `[2,256]`, the
palette returned by `quantizePalette` has length at most `targetColors`; for
every non-empty buffer it has length at least 1; and the result is
deterministic given identical input and options. -/
theorem quantizePalette_bounded_deterministic (pixels : List Pixel) (targetColors : ℕ)
    (opts : QuantizeOpts) (h2 : 2 ≤ targetColors) (h256 : targetColors ≤ 256) :
    (quantizePalette pixels targetColors opts).length ≤ targetColors ∧
    (pixels ≠ [] → 1 ≤ (quantizePalette pixels targetColors opts).length) ∧
    (∀ pixels₂ targetColors₂ opts₂, pixels = pixels₂ → targetColors = targetColors₂ →
      opts = opts₂ →
      quantizePalette pixels targetColors opts =
        quantizePalette pixels₂ targetColors₂ opts₂) := by
  refine ⟨quantizePalette_length_le pixels targetColors opts (by omega),
    fun hp => quantizePalette_length_pos pixels targetColors opts hp, ?_⟩
  rintro p₂ t₂ o₂ rfl rfl rfl
  rfl

/-- Witness for C1: a 3-color buffer quantized to 2 target colors. -/
theorem quantizePalette_bounded_deterministic_witness :
    (2 ≤ 2 ∧ (2:ℕ) ≤ 256) ∧
    ((quantizePalette [⟨10, 20, 30, 255⟩, ⟨200, 100, 50, 255⟩, ⟨0, 0, 0, 255⟩] 2
        ⟨PackFormat.rgb565, true, true⟩).length ≤ 2 ∧
      ([⟨10, 20, 30, 255⟩, ⟨200, 100, 50, 255⟩, ⟨0, 0, 0, 255⟩] ≠ ([] : List Pixel) →
        1 ≤ (quantizePalette [⟨10, 20, 30, 255⟩, ⟨200, 100, 50, 255⟩, ⟨0, 0, 0, 255⟩] 2
          ⟨PackFormat.rgb565, true, true⟩).length) ∧
      (∀ pixels₂ targetColors₂ opts₂,
        [⟨10, 20, 30, 255⟩, ⟨200, 100, 50, 255⟩, ⟨0, 0, 0, 255⟩] = pixels₂ →
        2 = targetColors₂ → (⟨PackFormat.rgb565, true, true⟩ : QuantizeOpts) = opts₂ →
        quantizePalette [⟨10, 20, 30, 255⟩, ⟨200, 100, 50, 255⟩, ⟨0, 0, 0, 255⟩] 2
            ⟨PackFormat.rgb565, true, true⟩ =
          quantizePalette pixels₂ targetColors₂ opts₂)) :=
  ⟨⟨by decide, by decide⟩,
    quantizePalette_bounded_deterministic _ _ _ (by decide) (by decide)⟩

/-- C2: a zero decoded width or height makes `convertImage` fail with an
error before any quantization or encoding: no encoder collaborator is
invoked and no blob is returned. -/
theorem convertImage_zero_dims (width height : ℕ) (data : List Pixel)
    (config : ConversionConfig) (boost : Option BoostSettings)
    (h : width = 0 ∨ height = 0) :
    (convertImage width height data config boost).result =
      Except.error "Conversion failed: decoded image has zero dimensions." ∧
    (convertImage width height data config boost).calls = [] := by
  unfold convertImage
  rw [if_pos h]
  exact ⟨rfl, rfl⟩

/-- Witness for C2: zero width with a JPEG target. -/
theorem convertImage_zero_dims_witness :
    ((0:ℕ) = 0 ∨ (5:ℕ) = 0) ∧
    ((convertImage 0 5 [] (ConversionConfig.jpeg 80) none).result =
      Except.error "Conversion failed: decoded image has zero dimensions." ∧
     (convertImage 0 5 [] (ConversionConfig.jpeg 80) none).calls = []) :=
  ⟨Or.inl rfl, convertImage_zero_dims 0 5 [] (ConversionConfig.jpeg 80) none (Or.inl rfl)⟩

/-- C6: `getOutputFormatSupport` reports PNG and GIF as supported in every
host environment and for every cache state, while the JPEG and WebP fields
are whatever the canvas-encoding probe answers — two hosts whose probes
differ get different JPEG fields. -/
theorem getOutputFormatSupport_png_gif_unconditional (env : HostEnv) (cache : EncodeCache) :
    (getOutputFormatSupport env cache).1.png = true ∧
    (getOutputFormatSupport env cache).1.gif = true ∧
    (getOutputFormatSupport env cache).1.jpeg =
      (supportsCanvasEncoding env cache "image/jpeg").result ∧
    (getOutputFormatSupport env cache).1.webp =
      (supportsCanvasEncoding env
        (supportsCanvasEncoding env cache "image/jpeg").cache "image/webp").result ∧
    (getOutputFormatSupport ⟨true, fun _ => true⟩ []).1.jpeg = true ∧
    (getOutputFormatSupport ⟨true, fun _ => false⟩ []).1.jpeg = false :=
  ⟨rfl, rfl, rfl, rfl, rfl, rfl⟩

/-- C7: the quality fraction handed to the lossy canvas encoder equals
`min 1 (max 0 (quality / 100))`, hence always lies in `[0,1]`, even for
negative quality values or values above 100. -/
theorem qualityToFloat_clamped (quality : ℚ) (width height : ℕ) (data : List Pixel)
    (boost : Option BoostSettings) (hw : width ≠ 0) (hh : height ≠ 0) :
    (convertImage width height data (ConversionConfig.jpeg quality) boost).calls =
      [EncoderCall.canvas "image/jpeg" (min 1 (max 0 (quality / 100)))] ∧
    qualityToFloat quality = min 1 (max 0 (quality / 100)) ∧
    0 ≤ qualityToFloat quality ∧ qualityToFloat quality ≤ 1 := by
  refine ⟨?_, rfl, le_min zero_le_one (le_max_left 0 _), min_le_left 1 _⟩
  unfold convertImage
  rw [if_neg (by simp [hw, hh])]
  rfl

/-- Witness for C7: quality 250 (above 100) on a 1×1 image. -/
theorem qualityToFloat_clamped_witness :
    ((1:ℕ) ≠ 0 ∧ (1:ℕ) ≠ 0) ∧
    ((convertImage 1 1 [] (ConversionConfig.jpeg 250) none).calls =
      [EncoderCall.canvas "image/jpeg" (min 1 (max 0 ((250:ℚ) / 100)))] ∧
     qualityToFloat 250 = min 1 (max 0 ((250:ℚ) / 100)) ∧
     0 ≤ qualityToFloat 250 ∧ qualityToFloat 250 ≤ 1) :=
  ⟨⟨by decide, by decide⟩, qualityToFloat_clamped 250 1 1 [] none (by decide) (by decide)⟩

/-- C5: a color count outside `[2,256]` is clamped into `[2,256]` by
`ensureColorCount` before any quantization runs, and the conversion
succeeds with the clamped value instead of failing: the embedded
`convertPng` is a total function (the source has no failure path of its
own), the reduction branch quantizes with the clamped count, and the PNG
encoder collaborator receives the clamped count. -/
theorem convertPng_clamps_colorCount (data : List Pixel) (width height : ℕ)
    (options : PngConversionOptions)
    (h : options.colorCount < 2 ∨ 256 < options.colorCount) :
    (2 ≤ ensureColorCount options.colorCount ∧ ensureColorCount options.colorCount ≤ 256) ∧
    (options.reduceColors = true → options.colorCount < 256 →
      (convertPng data width height options).frame =
        reduceColors
          (if options.preserveAlpha then data
            else applyBackground data (parseHexColor options.backgroundColor))
          (ensureColorCount options.colorCount) options.preserveAlpha) ∧
    (options.reduceColors = true →
      (convertPng data width height options).colorCount =
        ensureColorCount options.colorCount) := by
  have h1 : 2 ≤ ensureColorCount options.colorCount := by unfold ensureColorCount; omega
  have h2 : ensureColorCount options.colorCount ≤ 256 := by unfold ensureColorCount; omega
  refine ⟨⟨h1, h2⟩, ?_, ?_⟩
  · intro hr hc
    unfold convertPng
    dsimp only
    rw [if_pos ⟨hr, hc⟩]
  · intro hr
    unfold convertPng
    dsimp only
    rw [if_pos hr]

/-- Witness for C5: color count 0 (below the valid range). -/
theorem convertPng_clamps_colorCount_witness :
    ((PngConversionOptions.mk 0 true false "#000000" false).colorCount < 2 ∨
      256 < (PngConversionOptions.mk 0 true false "#000000" false).colorCount) ∧
    ((2 ≤ ensureColorCount (PngConversionOptions.mk 0 true false "#000000" false).colorCount ∧
        ensureColorCount (PngConversionOptions.mk 0 true false "#000000" false).colorCount ≤
          256) ∧
      ((PngConversionOptions.mk 0 true false "#000000" false).reduceColors = true →
        (PngConversionOptions.mk 0 true false "#000000" false).colorCount < 256 →
        (convertPng [⟨1, 2, 3, 4⟩] 1 1
            (PngConversionOptions.mk 0 true false "#000000" false)).frame =
          reduceColors
            (if (PngConversionOptions.mk 0 true false "#000000" false).preserveAlpha then
              [⟨1, 2, 3, 4⟩]
             else applyBackground [⟨1, 2, 3, 4⟩]
              (parseHexColor
                (PngConversionOptions.mk 0 true false "#000000" false).backgroundColor))
            (ensureColorCount (PngConversionOptions.mk 0 true false "#000000" false).colorCount)
            (PngConversionOptions.mk 0 true false "#000000" false).preserveAlpha) ∧
      ((PngConversionOptions.mk 0 true false "#000000" false).reduceColors = true →
        (convertPng [⟨1, 2, 3, 4⟩] 1 1
            (PngConversionOptions.mk 0 true false "#000000" false)).colorCount =
          ensureColorCount
            (PngConversionOptions.mk 0 true false "#000000" false).colorCount)) :=
  ⟨Or.inl (by decide),
    convertPng_clamps_colorCount [⟨1, 2, 3, 4⟩] 1 1 _ (Or.inl (by decide))⟩

/-- C8: `supportsCanvasEncoding` probes the host at most once per mime type:
starting from the empty module cache, the first call performs at most one
probe and stores its boolean answer in the cache, and the second call with
the same mime type performs no probe, returns the same boolean, and leaves
the cache unchanged (so every further call repeats the second call
verbatim). -/
theorem supportsCanvasEncoding_memoized (env : HostEnv) (mime : String)
    (hd : env.hasDocument = true) :
    (supportsCanvasEncoding env [] mime).probes ≤ 1 ∧
    cacheLookup (supportsCanvasEncoding env [] mime).cache mime =
      some (supportsCanvasEncoding env [] mime).result ∧
    (supportsCanvasEncoding env (supportsCanvasEncoding env [] mime).cache mime).probes = 0 ∧
    (supportsCanvasEncoding env (supportsCanvasEncoding env [] mime).cache mime).result =
      (supportsCanvasEncoding env [] mime).result ∧
    (supportsCanvasEncoding env (supportsCanvasEncoding env [] mime).cache mime).cache =
      (supportsCanvasEncoding env [] mime).cache := by
  have h1 : supportsCanvasEncoding env [] mime =
      ⟨env.probe mime, [(mime, env.probe mime)], 1⟩ := by
    unfold supportsCanvasEncoding
    rw [if_neg (by simp [hd])]
    rfl
  have h2 : cacheLookup [(mime, env.probe mime)] mime = some (env.probe mime) := by
    unfold cacheLookup
    rw [if_pos rfl]
  have h3 : supportsCanvasEncoding env [(mime, env.probe mime)] mime =
      ⟨env.probe mime, [(mime, env.probe mime)], 0⟩ := by
    unfold supportsCanvasEncoding
    rw [if_neg (by simp [hd]), h2]
  rw [h1]
  exact ⟨Nat.le_refl 1, h2, by rw [h3], by rw [h3], by rw [h3]⟩

/-- Witness for C8: a host whose probe always answers `false`. -/
theorem supportsCanvasEncoding_memoized_witness :
    (HostEnv.mk true (fun _ => false)).hasDocument = true ∧
    ((supportsCanvasEncoding ⟨true, fun _ => false⟩ [] "image/webp").probes ≤ 1 ∧
     cacheLookup (supportsCanvasEncoding ⟨true, fun _ => false⟩ [] "image/webp").cache
        "image/webp" =
      some (supportsCanvasEncoding ⟨true, fun _ => false⟩ [] "image/webp").result ∧
     (supportsCanvasEncoding ⟨true, fun _ => false⟩
        (supportsCanvasEncoding ⟨true, fun _ => false⟩ [] "image/webp").cache
        "image/webp").probes = 0 ∧
     (supportsCanvasEncoding ⟨true, fun _ => false⟩
        (supportsCanvasEncoding ⟨true, fun _ => false⟩ [] "image/webp").cache
        "image/webp").result =
      (supportsCanvasEncoding ⟨true, fun _ => false⟩ [] "image/webp").result ∧
     (supportsCanvasEncoding ⟨true, fun _ => false⟩
        (supportsCanvasEncoding ⟨true, fun _ => false⟩ [] "image/webp").cache
        "image/webp").cache =
      (supportsCanvasEncoding ⟨true, fun _ => false⟩ [] "image/webp").cache) :=
  ⟨rfl, supportsCanvasEncoding_memoized ⟨true, fun _ => false⟩ "image/webp" rfl⟩

/-- C3: `applyBoost` is a per-pixel, order-independent map with no
cross-pixel state: on a 4-byte pixel it rewrites R, G, B from that pixel
alone — each channel is multiplied by `2 ^ exposure`, blended linearly
between the Rec.709 luma and the exposed value by `saturation`, blended
around the midpoint 128 by `contrast` with the additive `brightness`
offset — and the result is clamped to `[0,255]`; the rest of the buffer is
processed independently of this pixel. -/
theorem applyBoost_per_pixel_map (boost : BoostSettings) (r g b a : ℚ) (rest : List ℚ) :
    applyBoostData boost (r :: g :: b :: a :: rest) =
      clampByte ((0.2126 * (r * (2:ℚ) ^ boost.exposure) +
            0.7152 * (g * (2:ℚ) ^ boost.exposure) + 0.0722 * (b * (2:ℚ) ^ boost.exposure) +
            (r * (2:ℚ) ^ boost.exposure -
              (0.2126 * (r * (2:ℚ) ^ boost.exposure) +
                0.7152 * (g * (2:ℚ) ^ boost.exposure) +
                0.0722 * (b * (2:ℚ) ^ boost.exposure))) * boost.saturation - 128) *
          boost.contrast + 128 + boost.brightness) ::
      clampByte ((0.2126 * (r * (2:ℚ) ^ boost.exposure) +
            0.7152 * (g * (2:ℚ) ^ boost.exposure) + 0.0722 * (b * (2:ℚ) ^ boost.exposure) +
            (g * (2:ℚ) ^ boost.exposure -
              (0.2126 * (r * (2:ℚ) ^ boost.exposure) +
                0.7152 * (g * (2:ℚ) ^ boost.exposure) +
                0.0722 * (b * (2:ℚ) ^ boost.exposure))) * boost.saturation - 128) *
          boost.contrast + 128 + boost.brightness) ::
      clampByte ((0.2126 * (r * (2:ℚ) ^ boost.exposure) +
            0.7152 * (g * (2:ℚ) ^ boost.exposure) + 0.0722 * (b * (2:ℚ) ^ boost.exposure) +
            (b * (2:ℚ) ^ boost.exposure -
              (0.2126 * (r * (2:ℚ) ^ boost.exposure) +
                0.7152 * (g * (2:ℚ) ^ boost.exposure) +
                0.0722 * (b * (2:ℚ) ^ boost.exposure))) * boost.saturation - 128) *
          boost.contrast + 128 + boost.brightness) ::
      a :: applyBoostData boost rest ∧
    (∀ v : ℚ, clampByte v = min 255 (max 0 v)) :=
  ⟨rfl, fun _ => rfl⟩

/-- Clamping is the identity on values already in `[0,255]`. -/
theorem clampByte_eq_self (v : ℚ) (h0 : 0 ≤ v) (h255 : v ≤ 255) : clampByte v = v := by
  unfold clampByte
  rw [max_eq_right h0, min_eq_right h255]

/-- C9: with the default boost settings (exposure 0, saturation 1,
contrast 1, brightness 0) the boost is the identity on pixel data: every
channel byte is left exactly unchanged. -/
theorem applyBoost_default_identity : ∀ data : List ℚ,
    (∀ x ∈ data, 0 ≤ x ∧ x ≤ 255) → applyBoostData defaultBoost data = data
  | [], _ => rfl
  | [_], _ => rfl
  | [_, _], _ => rfl
  | [_, _, _], _ => rfl
  | r :: g :: b :: a :: rest, h => by
    have hr := h r (by simp)
    have hg := h g (by simp)
    have hb := h b (by simp)
    have ih := applyBoost_default_identity rest (fun x hx => h x (by simp [hx]))
    simp only [defaultBoost] at ih
    simp only [applyBoostData, defaultBoost, zpow_zero, mul_one, add_zero]
    rw [ih]
    ring_nf
    rw [clampByte_eq_self r hr.1 hr.2, clampByte_eq_self g hg.1 hg.2,
      clampByte_eq_self b hb.1 hb.2]

/-- Witness for C9: a one-pixel buffer of in-range bytes. -/
theorem applyBoost_default_identity_witness :
    (∀ x ∈ [(12:ℚ), 200, 0, 255], 0 ≤ x ∧ x ≤ 255) ∧
    applyBoostData defaultBoost [(12:ℚ), 200, 0, 255] = [(12:ℚ), 200, 0, 255] :=
  ⟨by decide, applyBoost_default_identity _ (by decide)⟩

theorem applyBoostData_length (boost : BoostSettings) :
    ∀ data : List ℚ, (applyBoostData boost data).length = data.length
  | [] => rfl
  | [_] => rfl
  | [_, _] => rfl
  | [_, _, _] => rfl
  | _ :: _ :: _ :: _ :: rest => by
    simp only [applyBoostData, List.length_cons, applyBoostData_length boost rest]

theorem getElem?_cons4 (x1 x2 x3 x4 : α) (l : List α) (n : ℕ) :
    (x1 :: x2 :: x3 :: x4 :: l)[n + 4]? = l[n]? := by
  rw [show n + 4 = (n + 3) + 1 from rfl, List.getElem?_cons_succ,
      show n + 3 = (n + 2) + 1 from rfl, List.getElem?_cons_succ,
      show n + 2 = (n + 1) + 1 from rfl, List.getElem?_cons_succ, List.getElem?_cons_succ]

theorem getElem?_cons_three (x1 x2 x3 x4 : α) (l : List α) :
    (x1 :: x2 :: x3 :: x4 :: l)[(3:ℕ)]? = some x4 := by
  rw [show (3:ℕ) = 2 + 1 from rfl, List.getElem?_cons_succ,
      show (2:ℕ) = 1 + 1 from rfl, List.getElem?_cons_succ,
      show (1:ℕ) = 0 + 1 from rfl, List.getElem?_cons_succ, List.getElem?_cons_zero]

theorem applyBoostData_alpha (boost : BoostSettings) :
    ∀ (data : List ℚ) (k : ℕ), (applyBoostData boost data)[4 * k + 3]? = data[4 * k + 3]?
  | [], _ => rfl
  | [_], _ => rfl
  | [_, _], _ => rfl
  | [_, _, _], _ => rfl
  | r :: g :: b :: a :: rest, k => by
    cases k with
    | zero =>
      simp only [applyBoostData]
      rw [show 4 * 0 + 3 = 3 from rfl, getElem?_cons_three, getElem?_cons_three]
    | succ k =>
      have ih := applyBoostData_alpha boost rest k
      have e : 4 * (k + 1) + 3 = 4 * k + 3 + 4 := by ring
      rw [e]
      simp only [applyBoostData]
      rw [getElem?_cons4, getElem?_cons4]
      exact ih

/-- C10: for every buffer and every boost settings record, the boost never
modifies the alpha channel: the buffer keeps its length and every byte at an
index congruent to 3 modulo 4 is unchanged. -/
theorem applyBoost_preserves_alpha (boost : BoostSettings) (data : List ℚ) (i : ℕ)
    (h : i % 4 = 3) :
    (applyBoostData boost data).length = data.length ∧
    (applyBoostData boost data)[i]? = data[i]? := by
  refine ⟨applyBoostData_length boost data, ?_⟩
  have hi : i = 4 * (i / 4) + 3 := by omega
  rw [hi]
  exact applyBoostData_alpha boost data (i / 4)

/-- Witness for C10: a non-trivial boost on a two-pixel buffer, alpha index 7. -/
theorem applyBoost_preserves_alpha_witness :
    7 % 4 = 3 ∧
    ((applyBoostData ⟨1, 2, 3/2, 10⟩ [1, 2, 3, 4, 5, 6, 7, 8]).length =
      ([1, 2, 3, 4, 5, 6, 7, 8] : List ℚ).length ∧
     (applyBoostData ⟨1, 2, 3/2, 10⟩ [1, 2, 3, 4, 5, 6, 7, 8])[7]? =
      ([1, 2, 3, 4, 5, 6, 7, 8] : List ℚ)[7]?) :=
  ⟨by decide,
    applyBoost_preserves_alpha ⟨1, 2, 3/2, 10⟩ [1, 2, 3, 4, 5, 6, 7, 8] 7 (by decide)⟩

theorem flat4_getElem? (f : α → List ℕ) (hf : ∀ x, (f x).length = 4) :
    ∀ (l : List α) (i j : ℕ), j < 4 →
      (flat4 f l)[4 * i + j]? = (l[i]?).bind (fun x => (f x)[j]?) := by
  intro l
  induction l with
  | nil => intro i j hj; simp [flat4]
  | cons x xs ih =>
    intro i j hj
    cases i with
    | zero =>
      rw [show 4 * 0 + j = j by omega]
      simp only [flat4]
      rw [List.getElem?_append_left (by rw [hf x]; omega), List.getElem?_cons_zero]
      rfl
    | succ i =>
      rw [show 4 * (i + 1) + j = (f x).length + (4 * i + j) by rw [hf x]; ring]
      simp only [flat4]
      rw [List.getElem?_append_right (by omega), Nat.add_sub_cancel_left,
        List.getElem?_cons_succ]
      exact ih i j hj

theorem zip_map_self_getElem? (l : List α) (g : α → β) :
    ∀ i : ℕ, (l.zip (l.map g))[i]? = (l[i]?).map (fun x => (x, g x)) := by
  induction l with
  | nil => intro i; simp
  | cons x xs ih =>
    intro i
    cases i with
    | zero => simp [List.zip_cons_cons]
    | succ i => simp [List.zip_cons_cons, List.getElem?_cons_succ, ih]

theorem argminAux_fst_lt (f : α → ℕ) : ∀ l : List α, l ≠ [] → (argminAux f l).1 < l.length
  | [], h => absurd rfl h
  | [_], _ => by simp [argminAux]
  | x :: y :: rest, _ => by
    have ih := argminAux_fst_lt f (y :: rest) (by simp)
    simp only [argminAux]
    split
    · simp only [List.length_cons] at ih ⊢
      omega
    · simp

/-- The palette entry chosen for pixel `p` by the reduced-color PNG path:
the nearest entry of the `rgb565` palette quantized from `source`. -/
def chosenColor (source : List Pixel) (targetColors : ℕ) (p : Pixel) : List ℕ :=
  (quantizePalette source targetColors ⟨PackFormat.rgb565, true, true⟩).getD
    (nearestIndex PackFormat.rgb565
      (quantizePalette source targetColors ⟨PackFormat.rgb565, true, true⟩) p) []

/-- The 4-byte chunk the `preserveAlpha = false` reduction writes for one
pixel: the chosen palette RGB and the constant alpha 255. -/
def pngChunk (source : List Pixel) (targetColors : ℕ) (pi : Pixel × ℕ) : List ℕ :=
  [((quantizePalette source targetColors ⟨PackFormat.rgb565, true, true⟩).getD pi.2 []).getD 0 0,
   ((quantizePalette source targetColors ⟨PackFormat.rgb565, true, true⟩).getD pi.2 []).getD 1 0,
   ((quantizePalette source targetColors ⟨PackFormat.rgb565, true, true⟩).getD pi.2 []).getD 2 0,
   255]

/-- C4: color reduction with `preserveAlpha = false` writes a fully opaque
alpha byte (255) for every pixel and copies the RGB bytes of the palette
color chosen for that pixel; the chosen index is a real palette index; and
`convertPng` reaches this reduction only after compositing the source over
the configured background. -/
theorem reduceColors_opaque_output (source : List Pixel) (targetColors i : ℕ) (p : Pixel)
    (hp : source[i]? = some p) (data : List Pixel) (width height : ℕ)
    (options : PngConversionOptions) (hpa : options.preserveAlpha = false)
    (hrc : options.reduceColors = true) (hcc : options.colorCount < 256) :
    (reduceColors source targetColors false)[4 * i + 3]? = some 255 ∧
    (reduceColors source targetColors false)[4 * i]? =
      some ((chosenColor source targetColors p).getD 0 0) ∧
    (reduceColors source targetColors false)[4 * i + 1]? =
      some ((chosenColor source targetColors p).getD 1 0) ∧
    (reduceColors source targetColors false)[4 * i + 2]? =
      some ((chosenColor source targetColors p).getD 2 0) ∧
    nearestIndex PackFormat.rgb565
        (quantizePalette source targetColors ⟨PackFormat.rgb565, true, true⟩) p <
      (quantizePalette source targetColors ⟨PackFormat.rgb565, true, true⟩).length ∧
    (convertPng data width height options).frame =
      reduceColors (applyBackground data (parseHexColor options.backgroundColor))
        (ensureColorCount options.colorCount) false := by
  have hsrc : source ≠ [] := by
    intro hnil
    rw [hnil] at hp
    simp at hp
  have hpal : quantizePalette source targetColors ⟨PackFormat.rgb565, true, true⟩ ≠ [] := by
    have := quantizePalette_length_pos source targetColors ⟨PackFormat.rgb565, true, true⟩ hsrc
    intro hnil
    rw [hnil] at this
    simp at this
  have hred : reduceColors source targetColors false =
      flat4 (pngChunk source targetColors)
        (source.zip (source.map (nearestIndex PackFormat.rgb565
          (quantizePalette source targetColors ⟨PackFormat.rgb565, true, true⟩)))) := rfl
  have hzip := zip_map_self_getElem? source
    (nearestIndex PackFormat.rgb565
      (quantizePalette source targetColors ⟨PackFormat.rgb565, true, true⟩)) i
  rw [hp] at hzip
  have hfe := flat4_getElem? (pngChunk source targetColors) (fun _ => rfl)
    (source.zip (source.map (nearestIndex PackFormat.rgb565
      (quantizePalette source targetColors ⟨PackFormat.rgb565, true, true⟩))))
  refine ⟨?_, ?_, ?_, ?_,
    argminAux_fst_lt _ _ hpal, ?_⟩
  · rw [hred, hfe i 3 (by omega), hzip]
    rfl
  · rw [show 4 * i = 4 * i + 0 by omega, hred, hfe i 0 (by omega), hzip]
    rfl
  · rw [hred, hfe i 1 (by omega), hzip]
    rfl
  · rw [hred, hfe i 2 (by omega), hzip]
    rfl
  · simp [convertPng, hpa, hrc, hcc]

/-- Witness for C4: a one-pixel buffer and an out-of-the-box PNG options
record with alpha not preserved. -/
theorem reduceColors_opaque_output_witness :
    (([⟨1, 2, 3, 4⟩] : List Pixel)[0]? = some ⟨1, 2, 3, 4⟩ ∧
      (PngConversionOptions.mk 4 true false "#102030" false).preserveAlpha = false ∧
      (PngConversionOptions.mk 4 true false "#102030" false).reduceColors = true ∧
      (PngConversionOptions.mk 4 true false "#102030" false).colorCount < 256) ∧
    ((reduceColors [⟨1, 2, 3, 4⟩] 4 false)[4 * 0 + 3]? = some 255 ∧
     (reduceColors [⟨1, 2, 3, 4⟩] 4 false)[4 * 0]? =
      some ((chosenColor [⟨1, 2, 3, 4⟩] 4 ⟨1, 2, 3, 4⟩).getD 0 0) ∧
     (reduceColors [⟨1, 2, 3, 4⟩] 4 false)[4 * 0 + 1]? =
      some ((chosenColor [⟨1, 2, 3, 4⟩] 4 ⟨1, 2, 3, 4⟩).getD 1 0) ∧
     (reduceColors [⟨1, 2, 3, 4⟩] 4 false)[4 * 0 + 2]? =
      some ((chosenColor [⟨1, 2, 3, 4⟩] 4 ⟨1, 2, 3, 4⟩).getD 2 0) ∧
     nearestIndex PackFormat.rgb565
        (quantizePalette [⟨1, 2, 3, 4⟩] 4 ⟨PackFormat.rgb565, true, true⟩) ⟨1, 2, 3, 4⟩ <
      (quantizePalette [⟨1, 2, 3, 4⟩] 4 ⟨PackFormat.rgb565, true, true⟩).length ∧
     (convertPng [⟨9, 9, 9, 9⟩] 1 1 (PngConversionOptions.mk 4 true false "#102030" false)).frame =
      reduceColors
        (applyBackground [⟨9, 9, 9, 9⟩]
          (parseHexColor (PngConversionOptions.mk 4 true false "#102030" false).backgroundColor))
        (ensureColorCount (PngConversionOptions.mk 4 true false "#102030" false).colorCount)
        false) :=
  ⟨⟨by decide, rfl, rfl, by decide⟩,
    reduceColors_opaque_output [⟨1, 2, 3, 4⟩] 4 0 ⟨1, 2, 3, 4⟩ (by decide) [⟨9, 9, 9, 9⟩] 1 1
      (PngConversionOptions.mk 4 true false "#102030" false) rfl rfl (by decide)⟩
